import Mathlib

/-!
Shallow embedding of `src/js/app.js` (apt-subscription dashboard front-end).

Conventions of the embedding:
* JS `null`/`undefined` values are `Option.none`; a present value `v` is `some v`.
* JS numbers occurring in this code are integers (currency amounts, timestamps),
  embedded as `Int` (or `Nat` after `Math.abs`).
* The JS truthiness idiom `x || d` on numbers is embedded literally
  (`0`, `null`, `undefined` fall through to `d`).
* Module-level mutable state (`activeFilters`, `activeSort`, `allItems`) is
  passed explicitly as parameters/state.
-/

namespace AptSub

/-- One house-type variant within a listing (`models[]` entries).
Only the fields the front-end logic reads are embedded; `housing_type`
serves as an identity tag for positional reasoning. -/
structure Model where
  housing_type : Option String
  profit : Option Int
deriving DecidableEq

/-- The schedule sub-object. A date-string field is embedded as
`Option (Option Int)`: `none` = field absent or empty (JS falsy string),
`some none` = present but unparseable (`new Date(s).getTime()` is `NaN`),
`some (some t)` = present and parsing to timestamp `t`. -/
structure Schedule where
  receipt_start : Option (Option Int)
  announcement_date : Option (Option Int)
deriving DecidableEq

/-- One subscription listing; only the fields the core logic reads. -/
structure Item where
  id : String
  status : Option String
  region : Option String
  max_profit : Option Int
  schedule : Option Schedule
  models : Option (List Model)
deriving DecidableEq

/-- Embedding of the JS idiom `x || 0` for a nullable number `x`:
`null`/`undefined` and `0` itself are falsy and yield `0`. -/
def jsOr0 (x : Option Int) : Int :=
  match x with
  | none => 0
  | some v => if v = 0 then 0 else v

theorem jsOr0_eq_getD (x : Option Int) : jsOr0 x = x.getD 0 := by
  cases x with
  | none => rfl
  | some v =>
    by_cases h : v = 0 <;> simp [jsOr0, h]

/-- Embedding of the JS idiom `a || b` on two integer values
(`0` is the only falsy integer here). -/
def jsOrInt (a b : Int) : Int :=
  if a = 0 then b else a

/-! ## formatMoney (app.js lines 452-466) -/

/-- Digit-grouping worker for `Number.prototype.toLocaleString`:
input is the digit characters least-significant first; a comma is inserted
after every three digits. -/
def group3 : List Char → List Char
  | [] => []
  | [a] => [a]
  | [a, b] => [a, b]
  | [a, b, c] => [a, b, c]
  | a :: b :: c :: d :: rest => a :: b :: c :: ',' :: group3 (d :: rest)

/-- Embedding of `Number.prototype.toLocaleString()` on a non-negative
integer: decimal digits with `,` thousands separators. -/
def toLocaleString (n : Nat) : String :=
  String.mk (group3 (toString n).data.reverse).reverse

/-- Embedding of `formatMoney(amount)` (app.js 452-466).
The guard `if (!amount && amount !== 0) return '-'` fires exactly when
`amount` is `null`/`undefined` (`none`); a present amount — zero included —
continues to the formatting branches. -/
def formatMoney (amount : Option Int) : String :=
  match amount with
  | none => "-"
  | some a =>
    let absAmount : Nat := a.natAbs
    let sign : String := if a < 0 then "-" else ""
    if absAmount ≥ 100000000 then
      let eok := absAmount / 100000000
      let man := (absAmount % 100000000) / 10000
      sign ++ toString eok ++ "억" ++
        (if man > 0 then " " ++ toLocaleString man ++ "만" else "")
    else if absAmount ≥ 10000 then
      sign ++ toLocaleString (absAmount / 10000) ++ "만"
    else
      sign ++ toLocaleString absAmount ++ "원"

/-! ## Dates (app.js 468-476) -/

/-- Embedding of `dateVal(dateStr)` (app.js 468-471):
missing/empty string gives 0; `new Date(dateStr).getTime() || 0` gives 0
for an unparseable string (`NaN`) and the timestamp otherwise (an exact
epoch timestamp 0 also falls through `|| 0` to 0). -/
def dateVal (d : Option (Option Int)) : Int :=
  match d with
  | none => 0
  | some none => 0
  | some (some t) => jsOrInt t 0

/-- The default empty schedule, for `item.schedule || {}`. -/
def emptySchedule : Schedule := { receipt_start := none, announcement_date := none }

/-- Embedding of `bestDate(item)` (app.js 473-476):
`dateVal(s.receipt_start) || dateVal(s.announcement_date) || 0`. -/
def bestDate (i : Item) : Int :=
  let s := i.schedule.getD emptySchedule
  jsOrInt (dateVal s.receipt_start) (jsOrInt (dateVal s.announcement_date) 0)

/-! ## Filtering (app.js 409-419) -/

/-- The module-level `activeFilters` state. -/
structure Filters where
  status : String
  region : String
deriving DecidableEq

/-- The trailing region check shared by all paths of the filter predicate:
`if (activeFilters.region !== 'all' && item.region !== activeFilters.region) return false; return true;`. -/
def regionTail (f : Filters) (i : Item) : Bool :=
  if f.region ≠ "all" ∧ i.region ≠ some f.region then false else true

/-- The predicate passed to `items.filter` in `applyFilters` (app.js 410-418),
with the early returns folded into nested conditionals. -/
def itemPass (f : Filters) (i : Item) : Bool :=
  if f.status = "upcoming" then
    if i.status ≠ some "접수예정" ∧ i.status ≠ some "접수중" then false
    else regionTail f i
  else
    if f.status ≠ "all" ∧ i.status ≠ some f.status then false
    else regionTail f i

/-- Embedding of `applyFilters(items)` (app.js 409-419); the `activeFilters`
module state is an explicit argument. -/
def applyFilters (f : Filters) (items : List Item) : List Item :=
  items.filter (itemPass f)

/-- The status condition of the filter in isolation (used to state that the
two filter dimensions compose by logical AND). -/
def statusPass (f : Filters) (i : Item) : Bool :=
  if f.status = "upcoming" then
    decide (i.status = some "접수예정" ∨ i.status = some "접수중")
  else if f.status = "all" then true
  else decide (i.status = some f.status)

/-- The region condition of the filter in isolation. -/
def regionPass (f : Filters) (i : Item) : Bool :=
  if f.region = "all" then true else decide (i.region = some f.region)

/-! ## Sorting (app.js 421-438) -/

/-- JS comparator `(a, b) => (b.max_profit || 0) - (a.max_profit || 0)`:
`a` may stay before `b` iff the comparator is ≤ 0. JS `Array.prototype.sort`
is specified stable, embedded via `List.mergeSort`. -/
def profitDescLe (a b : Item) : Bool :=
  decide (jsOr0 b.max_profit ≤ jsOr0 a.max_profit)

/-- JS comparator `(a, b) => (a.max_profit || 0) - (b.max_profit || 0)`. -/
def profitAscLe (a b : Item) : Bool :=
  decide (jsOr0 a.max_profit ≤ jsOr0 b.max_profit)

/-- JS comparator `(a, b) => bestDate(a) - bestDate(b)`. -/
def dateAscLe (a b : Item) : Bool :=
  decide (bestDate a ≤ bestDate b)

/-- JS comparator `(a, b) => bestDate(b) - bestDate(a)`. -/
def dateDescLe (a b : Item) : Bool :=
  decide (bestDate b ≤ bestDate a)

/-- Embedding of `applySort(items)` (app.js 421-438): a defensive copy
(`[...items]`) is sorted in place with the comparator selected by the
`activeSort` module state (explicit argument); an unrecognized key returns
the copy unsorted. -/
def applySort (sortKey : String) (items : List Item) : List Item :=
  if sortKey = "profit-desc" then items.mergeSort profitDescLe
  else if sortKey = "profit-asc" then items.mergeSort profitAscLe
  else if sortKey = "date-asc" then items.mergeSort dateAscLe
  else if sortKey = "date-desc" then items.mergeSort dateDescLe
  else items

/-! ## Best model (app.js 487-492) -/

/-- Embedding of `m.profit || 0` as used by the `getBestModel` comparator. -/
def modelProfit (m : Model) : Int := jsOr0 m.profit

/-- The `reduce` callback of `getBestModel`:
`(best, m) => (m.profit || 0) > (best.profit || 0) ? m : best`. -/
def betterModel (best m : Model) : Model :=
  if modelProfit m > modelProfit best then m else best

/-- Embedding of `getBestModel(models)` (app.js 487-492).
`!models || models.length === 0` yields `null`; otherwise
`models.reduce(cb, models[0])` folds the callback over the whole sequence
starting from the first element. -/
def getBestModel (models : Option (List Model)) : Option Model :=
  match models with
  | none => none
  | some [] => none
  | some (m :: ms) => some ((m :: ms).foldl betterModel m)

/-! ## Navigation (app.js 167-188, 441-449) -/

/-- The navigation state determined by the URL fragment. -/
inductive NavState where
  | list
  | detail (id : String)
deriving DecidableEq

/-- The overlay-related view state touched by `openDetail`/`closeDetail`:
overlay `active` class, `document.body.style.overflow` lock, and the
detail panel's rendered listing. -/
structure ViewState where
  overlayActive : Bool
  scrollLocked : Bool
  panel : Option Item
deriving DecidableEq

/-- What `openDetail` hands the rendering boundary: a listing view-model,
or nothing (`if (!item) return;`) — the not-found signal. -/
inductive DetailRender where
  | shown (item : Item)
  | notFound
deriving DecidableEq

/-- Embedding of `openDetail(id)` (app.js 167-180): look up the id in the
loaded listings; on a miss return with the view state untouched and no
listing view-model (`DetailRender.notFound`); on a hit activate the
overlay, lock scroll, and render the item. -/
def openDetail (items : List Item) (id : String) (vs : ViewState) :
    ViewState × DetailRender :=
  match items.find? (fun i => i.id == id) with
  | none => (vs, DetailRender.notFound)
  | some item =>
      ({ overlayActive := true, scrollLocked := true, panel := some item },
       DetailRender.shown item)

/-- Embedding of `closeDetail()` (app.js 182-188) on the tracked view state:
the overlay deactivates and the scroll lock is released (the panel's last
content is not cleared). -/
def closeDetail (vs : ViewState) : ViewState :=
  { vs with overlayActive := false, scrollLocked := false }

/-- Embedding of `handleHashChange()` (app.js 441-449); the fragment and the
loaded listings are explicit arguments. Strings are modelled at the
character level: `hash.startsWith('#detail/')` is a prefix test on the
character sequence, and `hash.replace('#detail/', '')` — whose first match
under that guard is at position 0 — drops the 8 prefix characters. The
resulting navigation state records the extracted id verbatim. -/
def handleHashChange (items : List Item) (hash : String) (vs : ViewState) :
    NavState × ViewState × Option DetailRender :=
  if "#detail/".data.isPrefixOf hash.data then
    let id := String.mk (hash.data.drop 8)
    let r := openDetail items id vs
    (NavState.detail id, r.1, some r.2)
  else
    (NavState.list, closeDetail vs, none)

/-! ## Data load (app.js 21-45) -/

/-- The parsed snapshot document, `{updated_at, items}`. -/
structure SnapshotData where
  items : Option (List Item)
  updated_at : Option String

/-- The fetch response: `ok` status, and `none` body when `resp.json()`
fails to parse. -/
structure FetchResp where
  ok : Bool
  body : Option SnapshotData

/-- What `loadData` pushes to the rendering boundary: the rendered card
list, or the error empty-state block of the `catch` handler. -/
inductive RenderSignal where
  | cards (visible : List Item)
  | fallbackEmptyState
deriving DecidableEq

/-- Embedding of `loadData()` (app.js 21-45). The fetch outcome is an
explicit argument (`none` = the fetch itself rejected). Any throw —
non-success status, or JSON parse failure — lands in the `catch` block,
which leaves `allItems` untouched and emits the error empty-state exactly
once; on success `allItems` becomes `data.items || []` and the cards are
rendered through the filter/sort pipeline. -/
def loadData (fetchResult : Option FetchResp) (f : Filters) (sortKey : String)
    (allItems : List Item) : List Item × List RenderSignal :=
  match fetchResult with
  | none => (allItems, [RenderSignal.fallbackEmptyState])
  | some resp =>
    if resp.ok then
      match resp.body with
      | none => (allItems, [RenderSignal.fallbackEmptyState])
      | some data =>
        let newItems := data.items.getD []
        (newItems, [RenderSignal.cards (applySort sortKey (applyFilters f newItems))])
    else (allItems, [RenderSignal.fallbackEmptyState])

/-! ## Array-identity model for the pipeline's frame property (app.js 100-103, 409-438) -/

/-- A minimal heap of JS arrays of listings, addressed by allocation index,
to express which array objects the pipeline touches. -/
abbrev Heap := List (List Item)

/-- The contents an array reference currently holds. -/
def Heap.read (h : Heap) (r : Nat) : List Item :=
  h.getD r []

/-- Allocating a fresh array with the given contents. -/
def Heap.alloc (h : Heap) (c : List Item) : Heap × Nat :=
  (h ++ [c], h.length)

/-- Embedding note: `items.filter(...)` allocates a new array; the argument array is not
written. -/
def applyFiltersH (f : Filters) (h : Heap) (r : Nat) : Heap × Nat :=
  h.alloc (applyFilters f (h.read r))

/-- Embedding note: `const sorted = [...items]; sorted.sort(cmp); return sorted;` allocates
a copy and sorts it in place; the net heap effect is a fresh array holding
the sorted contents, the argument array untouched. -/
def applySortH (sortKey : String) (h : Heap) (r : Nat) : Heap × Nat :=
  h.alloc (applySort sortKey (h.read r))

/-- The pipeline of `renderCards` (app.js 102-103):
`let filtered = applyFilters(allItems); filtered = applySort(filtered);`. -/
def renderPipelineH (f : Filters) (sortKey : String) (h : Heap) (r : Nat) :
    Heap × Nat :=
  let p := applyFiltersH f h r
  applySortH sortKey p.1 p.2

/-! ## Helper lemmas -/

/-- The absolute-value part of `formatMoney`, factored out of the sign. -/
def fmtAbs (n : Nat) : String :=
  if n ≥ 100000000 then
    toString (n / 100000000) ++ "억" ++
      (if n % 100000000 / 10000 > 0 then
        " " ++ toLocaleString (n % 100000000 / 10000) ++ "만" else "")
  else if n ≥ 10000 then toLocaleString (n / 10000) ++ "만"
  else toLocaleString n ++ "원"

theorem formatMoney_some_eq (a : Int) :
    formatMoney (some a) = (if a < 0 then "-" else "") ++ fmtAbs a.natAbs := by
  simp only [formatMoney, fmtAbs]
  split_ifs <;> simp [String.append_assoc]

theorem le_foldl_betterModel : ∀ (l : List Model) (m : Model),
    modelProfit m ≤ modelProfit (l.foldl betterModel m)
  | [], _ => le_refl _
  | x :: l, m => by
    rw [List.foldl_cons]
    unfold betterModel
    split_ifs with h
    · exact le_trans (le_of_lt h) (le_foldl_betterModel l x)
    · exact le_foldl_betterModel l m

/-- The fold of `getBestModel` lands on the first position-maximal element:
the initial element and list split around the result, everything before it
strictly smaller, everything after it no larger. -/
theorem foldl_betterModel_split : ∀ (l : List Model) (m : Model),
    ∃ l₁ l₂, m :: l = l₁ ++ (l.foldl betterModel m) :: l₂ ∧
      (∀ x ∈ l₁, modelProfit x < modelProfit (l.foldl betterModel m)) ∧
      (∀ x ∈ l₂, modelProfit x ≤ modelProfit (l.foldl betterModel m))
  | [], m => ⟨[], [], rfl, by simp, by simp⟩
  | x :: l, m => by
    rw [List.foldl_cons]
    by_cases hp : modelProfit x > modelProfit m
    · have hbx : betterModel m x = x := if_pos hp
      rw [hbx]
      obtain ⟨l₁, l₂, heq, h₁, h₂⟩ := foldl_betterModel_split l x
      refine ⟨m :: l₁, l₂, ?_, ?_, h₂⟩
      · rw [List.cons_append, ← heq]
      · intro y hy
        rcases List.mem_cons.mp hy with rfl | hyl
        · exact lt_of_lt_of_le hp (le_foldl_betterModel l x)
        · exact h₁ y hyl
    · have hbx : betterModel m x = m := if_neg hp
      rw [hbx]
      have hxm : modelProfit x ≤ modelProfit m := le_of_not_lt hp
      obtain ⟨l₁, l₂, heq, h₁, h₂⟩ := foldl_betterModel_split l m
      cases l₁ with
      | nil =>
        simp only [List.nil_append] at heq
        obtain ⟨hbm, hl₂⟩ := List.cons.inj heq
        refine ⟨[], x :: l, by rw [List.nil_append, ← hbm], by simp, ?_⟩
        intro y hy
        rcases List.mem_cons.mp hy with rfl | hyl
        · rw [← hbm]; exact hxm
        · rw [hl₂] at hyl; exact h₂ y hyl
      | cons a as =>
        simp only [List.cons_append] at heq
        obtain ⟨ham, hl⟩ := List.cons.inj heq
        rw [← ham] at h₁
        have hmb : modelProfit m < modelProfit (l.foldl betterModel m) :=
          h₁ m (List.mem_cons_self m as)
        refine ⟨m :: x :: as, l₂, ?_, ?_, h₂⟩
        · simp only [List.cons_append]
          conv_lhs => rw [hl]
        · intro y hy
          rcases List.mem_cons.mp hy with rfl | hy'
          · exact hmb
          rcases List.mem_cons.mp hy' with rfl | hy''
          · exact lt_of_le_of_lt hxm hmb
          · exact h₁ y (List.mem_cons_of_mem m hy'')

theorem foldl_betterModel_cons_self (m : Model) (ms : List Model) :
    (m :: ms).foldl betterModel m = ms.foldl betterModel m := by
  rw [List.foldl_cons]
  have h : betterModel m m = m := by
    unfold betterModel
    simp
  rw [h]

/-! ## Claims -/

/-- Claim C1 counterexample: the claim says a zero amount yields the same
string `"-"` as a null amount; in fact the guard `!amount && amount !== 0`
exempts zero, and `formatMoney(0)` is `"0원"`, different from
`formatMoney(null) = "-"`. -/
theorem C1_counterexample :
    formatMoney (some 0) = "0원" ∧ formatMoney none = "-" ∧
    ¬ formatMoney (some 0) = formatMoney none := by
  refine ⟨by decide, rfl, by decide⟩

/-- Claim C1 (amended): a null or undefined amount yields `"-"`, but a zero
amount is distinguished from a missing one: `formatMoney(0) = "0원"`, not
`"-"`. -/
theorem C1_amended_formatMoney :
    formatMoney none = "-" ∧ formatMoney (some 0) = "0원" ∧
    formatMoney (some 0) ≠ formatMoney none := by
  refine ⟨rfl, by decide, by decide⟩

/-- Claim C6: for a present nonzero signed amount, `formatMoney` applies the
abbreviation rule to the absolute value and re-prefixes `-` when negative:
billions branch with optional ten-thousands group, ten-thousands branch,
plain-won branch; and the four concrete examples of the spec hold. -/
theorem C6_formatMoney_rule (a : Int) (_ha : a ≠ 0) :
    (a < 0 → formatMoney (some a) = "-" ++ formatMoney (some (-a))) ∧
    (100000000 ≤ a.natAbs → formatMoney (some a) =
      (if a < 0 then "-" else "") ++ toString (a.natAbs / 100000000) ++ "억" ++
        (if 0 < a.natAbs % 100000000 / 10000 then
          " " ++ toLocaleString (a.natAbs % 100000000 / 10000) ++ "만" else "")) ∧
    (10000 ≤ a.natAbs → a.natAbs < 100000000 → formatMoney (some a) =
      (if a < 0 then "-" else "") ++ toLocaleString (a.natAbs / 10000) ++ "만") ∧
    (a.natAbs < 10000 → formatMoney (some a) =
      (if a < 0 then "-" else "") ++ toLocaleString a.natAbs ++ "원") ∧
    formatMoney (some 250000000) = "2억 5,000만" ∧
    formatMoney (some 15000) = "1만" ∧
    formatMoney (some 500) = "500원" ∧
    formatMoney (some (-120000000)) = "-1억 2,000만" := by
  refine ⟨?_, ?_, ?_, ?_, by decide, by decide, by decide, by decide⟩
  · intro hneg
    rw [formatMoney_some_eq, formatMoney_some_eq]
    have h1 : (-a).natAbs = a.natAbs := Int.natAbs_neg a
    have h2 : ¬ (-a < 0) := by omega
    rw [h1, if_pos hneg, if_neg h2, String.empty_append]
  · intro hbig
    rw [formatMoney_some_eq]
    unfold fmtAbs
    rw [if_pos hbig]
    simp [String.append_assoc]
  · intro hman hlt
    rw [formatMoney_some_eq]
    unfold fmtAbs
    rw [if_neg (show ¬ a.natAbs ≥ 100000000 by omega), if_pos hman,
      String.append_assoc]
  · intro hsmall
    rw [formatMoney_some_eq]
    unfold fmtAbs
    rw [if_neg (show ¬ a.natAbs ≥ 100000000 by omega),
      if_neg (show ¬ a.natAbs ≥ 10000 by omega), String.append_assoc]

/-- Claim C6 witness: the rule instantiated at `-120,000,000`. -/
theorem C6_witness :
    formatMoney (some (-120000000 : Int)) =
      "-" ++ formatMoney (some (-(-120000000 : Int))) :=
  (C6_formatMoney_rule (-120000000) (by decide)).1 (by decide)

theorem regionTail_eq (f : Filters) (i : Item) :
    regionTail f i = regionPass f i := by
  unfold regionTail regionPass
  by_cases hr : f.region = "all"
  · simp [hr]
  · by_cases hri : i.region = some f.region <;> simp [hr, hri]

/-- The filter predicate is the conjunction of its status and region
dimensions. -/
theorem itemPass_eq_and (f : Filters) (i : Item) :
    itemPass f i = (statusPass f i && regionPass f i) := by
  unfold itemPass statusPass
  by_cases h1 : f.status = "upcoming"
  · rw [if_pos h1, if_pos h1]
    by_cases hs : i.status ≠ some "접수예정" ∧ i.status ≠ some "접수중"
    · rw [if_pos hs]
      have hd : ¬ (i.status = some "접수예정" ∨ i.status = some "접수중") := by
        tauto
      simp [hd]
    · rw [if_neg hs, regionTail_eq]
      have hd : i.status = some "접수예정" ∨ i.status = some "접수중" := by
        tauto
      simp [hd]
  · rw [if_neg h1, if_neg h1]
    by_cases h2 : f.status = "all"
    · rw [if_pos h2]
      have hg : ¬ (f.status ≠ "all" ∧ i.status ≠ some f.status) := by tauto
      rw [if_neg hg, regionTail_eq, Bool.true_and]
    · rw [if_neg h2]
      by_cases hsi : i.status = some f.status
      · have hg : ¬ (f.status ≠ "all" ∧ i.status ≠ some f.status) := by tauto
        rw [if_neg hg, regionTail_eq]
        simp [hsi]
      · have hg : f.status ≠ "all" ∧ i.status ≠ some f.status := ⟨h2, hsi⟩
        rw [if_pos hg]
        simp [hsi]

/-- Claim C4: the `upcoming` status filter retains a listing iff its status
is `접수예정` or `접수중`; the `all` region filter (with `all` status)
retains every item; and for any filter state, membership in the filtered
output is the logical AND of the status and region conditions. -/
theorem C4_filter_semantics (items : List Item) :
    (∀ i : Item, i ∈ applyFilters ⟨"upcoming", "all"⟩ items ↔
        i ∈ items ∧ (i.status = some "접수예정" ∨ i.status = some "접수중")) ∧
    applyFilters ⟨"all", "all"⟩ items = items ∧
    (∀ (f : Filters) (i : Item), i ∈ applyFilters f items ↔
        i ∈ items ∧ statusPass f i = true ∧ regionPass f i = true) := by
  refine ⟨?_, ?_, ?_⟩
  · intro i
    rw [applyFilters, List.mem_filter, itemPass_eq_and]
    simp [statusPass, regionPass]
  · rw [applyFilters, List.filter_eq_self]
    intro a _
    have h1 : ("all" : String) ≠ "upcoming" := by decide
    rw [itemPass_eq_and]
    simp [statusPass, regionPass, h1]
  · intro f i
    rw [applyFilters, List.mem_filter, itemPass_eq_and, Bool.and_eq_true]

/-- Claim C2: for every non-empty model sequence, `getBestModel` returns
the first position-maximal model — every earlier model has strictly smaller
profit and every later one no greater profit; the empty sequence gives
`none`; and on `[{profit:5},{profit:9},{profit:9}]` the second element is
returned. -/
theorem C2_best_model :
    (∀ (m : Model) (ms : List Model), ∃ b l₁ l₂,
        getBestModel (some (m :: ms)) = some b ∧
        m :: ms = l₁ ++ b :: l₂ ∧
        (∀ x ∈ l₁, modelProfit x < modelProfit b) ∧
        (∀ x ∈ l₂, modelProfit x ≤ modelProfit b)) ∧
    getBestModel (some ([] : List Model)) = none ∧
    getBestModel (some [{ housing_type := some "A", profit := some 5 },
                        { housing_type := some "B", profit := some 9 },
                        { housing_type := some "C", profit := some 9 }]) =
      some { housing_type := some "B", profit := some 9 } := by
  refine ⟨?_, rfl, by decide⟩
  intro m ms
  obtain ⟨l₁, l₂, heq, h₁, h₂⟩ := foldl_betterModel_split ms m
  refine ⟨ms.foldl betterModel m, l₁, l₂, ?_, heq, h₁, h₂⟩
  show some ((m :: ms).foldl betterModel m) = _
  rw [foldl_betterModel_cons_self]

/-- Claim C10: `getBestModel` is total beyond the stated domain — a null
models argument gives `none`; any returned model is an element of the input
maximal in profit-with-missing-as-0; hence in a sequence containing a model
with absent profit, the winner's key is never negative (a genuinely
negative profit never beats an absent one). -/
theorem C10_getBestModel_total :
    getBestModel none = none ∧
    (∀ (l : List Model) (b : Model), getBestModel (some l) = some b →
      b ∈ l ∧ (∀ x ∈ l, modelProfit x ≤ modelProfit b) ∧
      ((∃ x ∈ l, x.profit = none) → 0 ≤ modelProfit b)) := by
  refine ⟨rfl, ?_⟩
  intro l b hb
  cases l with
  | nil => cases hb
  | cons m ms =>
    have hfold : (m :: ms).foldl betterModel m = b := by
      have : some ((m :: ms).foldl betterModel m) = some b := hb
      exact Option.some.inj this
    rw [foldl_betterModel_cons_self] at hfold
    obtain ⟨l₁, l₂, heq, h₁, h₂⟩ := foldl_betterModel_split ms m
    rw [hfold] at heq h₁ h₂
    have hmax : ∀ x ∈ m :: ms, modelProfit x ≤ modelProfit b := by
      intro x hx
      rw [heq] at hx
      rcases List.mem_append.mp hx with hx₁ | hx₂
      · exact le_of_lt (h₁ x hx₁)
      rcases List.mem_cons.mp hx₂ with rfl | hx₃
      · exact le_refl _
      · exact h₂ x hx₃
    refine ⟨?_, hmax, ?_⟩
    · rw [heq]
      exact List.mem_append.mpr (Or.inr (List.mem_cons_self b l₂))
    · rintro ⟨x, hx, hxp⟩
      have := hmax x hx
      rw [modelProfit, hxp] at this
      exact le_trans (le_of_eq rfl) this

/-- Claim C10 witness: a model with absent profit beats one with negative
profit. -/
theorem C10_witness :
    ({ housing_type := some "A", profit := none } : Model) ∈
      [({ housing_type := some "A", profit := none } : Model),
       { housing_type := some "B", profit := some (-3) }] ∧
    (∀ x ∈ [({ housing_type := some "A", profit := none } : Model),
            { housing_type := some "B", profit := some (-3) }],
        modelProfit x ≤ modelProfit { housing_type := some "A", profit := none }) ∧
    ((∃ x ∈ [({ housing_type := some "A", profit := none } : Model),
             { housing_type := some "B", profit := some (-3) }], x.profit = none) →
        0 ≤ modelProfit { housing_type := some "A", profit := none }) :=
  C10_getBestModel_total.2
    [{ housing_type := some "A", profit := none },
     { housing_type := some "B", profit := some (-3) }]
    { housing_type := some "A", profit := none } (by decide)

theorem profitDescLe_trans (a b c : Item) :
    profitDescLe a b = true → profitDescLe b c = true → profitDescLe a c = true := by
  simp only [profitDescLe, decide_eq_true_eq]
  omega

theorem profitDescLe_total (a b : Item) :
    profitDescLe a b || profitDescLe b a := by
  simp only [profitDescLe, Bool.or_eq_true, decide_eq_true_eq]
  omega

theorem dateAscLe_trans (a b c : Item) :
    dateAscLe a b = true → dateAscLe b c = true → dateAscLe a c = true := by
  simp only [dateAscLe, decide_eq_true_eq]
  omega

theorem dateAscLe_total (a b : Item) :
    dateAscLe a b || dateAscLe b a := by
  simp only [dateAscLe, Bool.or_eq_true, decide_eq_true_eq]
  omega

theorem applySort_profit_desc (items : List Item) :
    applySort "profit-desc" items = items.mergeSort profitDescLe := rfl

theorem applySort_date_asc (items : List Item) :
    applySort "date-asc" items = items.mergeSort dateAscLe := rfl

/-- A stable sort does not reorder the elements selected by any predicate on
which the comparator always holds (e.g. elements sharing one sort key). -/
theorem mergeSort_filter_stable {α : Type} (le : α → α → Bool)
    (htrans : ∀ a b c : α, le a b = true → le b c = true → le a c = true)
    (htotal : ∀ a b : α, le a b || le b a)
    (p : α → Bool) (hp : ∀ a b : α, p a = true → p b = true → le a b = true)
    (l : List α) : (l.mergeSort le).filter p = l.filter p := by
  have hpw : (l.filter p).Pairwise (fun a b => le a b = true) := by
    rw [List.pairwise_iff_forall_sublist]
    intro a b hab
    have ha : a ∈ l.filter p := hab.subset (by simp)
    have hb : b ∈ l.filter p := hab.subset (by simp)
    exact hp a b (List.mem_filter.mp ha).2 (List.mem_filter.mp hb).2
  have h1 : List.Sublist (l.filter p) (l.mergeSort le) :=
    List.sublist_mergeSort htrans htotal hpw (List.filter_sublist l)
  have h2 : List.Sublist ((l.filter p).filter p) ((l.mergeSort le).filter p) :=
    List.Sublist.filter p h1
  have hff : (l.filter p).filter p = l.filter p :=
    List.filter_eq_self.mpr (fun a ha => (List.mem_filter.mp ha).2)
  rw [hff] at h2
  have h3 : ((l.mergeSort le).filter p).length = (l.filter p).length :=
    ((List.mergeSort_perm l le).filter p).length_eq
  exact (h2.eq_of_length h3.symm).symm

/-- Claim C5: sorting with `profit-desc` permutes the input, yields
non-increasing `maxProfit` keys (missing treated as 0), is stable — the
elements at any fixed key keep their relative order — and a repeated
filter-then-sort pass returns the same sequence. -/
theorem C5_sort_profit_desc (items : List Item) :
    (applySort "profit-desc" items).Perm items ∧
    (applySort "profit-desc" items).Pairwise
      (fun a b => jsOr0 b.max_profit ≤ jsOr0 a.max_profit) ∧
    (∀ k : Int, (applySort "profit-desc" items).filter
        (fun i => jsOr0 i.max_profit == k) =
      items.filter (fun i => jsOr0 i.max_profit == k)) ∧
    (∀ f : Filters,
      applySort "profit-desc"
          (applyFilters f (applySort "profit-desc" (applyFilters f items))) =
        applySort "profit-desc" (applyFilters f items)) := by
  simp only [applySort_profit_desc]
  refine ⟨List.mergeSort_perm items profitDescLe, ?_, ?_, ?_⟩
  · have hs := List.sorted_mergeSort profitDescLe_trans profitDescLe_total items
    exact hs.imp (fun h => by simpa [profitDescLe] using h)
  · intro k
    refine mergeSort_filter_stable profitDescLe profitDescLe_trans
      profitDescLe_total _ ?_ items
    intro a b ha hb
    simp only [beq_iff_eq] at ha hb
    simp [profitDescLe, ha, hb]
  · intro f
    have hall : applyFilters f ((applyFilters f items).mergeSort profitDescLe) =
        (applyFilters f items).mergeSort profitDescLe := by
      rw [applyFilters, List.filter_eq_self]
      intro a ha
      have hmem : a ∈ applyFilters f items := List.mem_mergeSort.mp ha
      exact (List.mem_filter.mp hmem).2
    rw [hall]
    exact List.mergeSort_of_sorted
      (List.sorted_mergeSort profitDescLe_trans profitDescLe_total _)

/-- Claim C3: a `#detail/{id}` fragment whose id resolves to no loaded
listing does not fault: the navigation state still records `Detail(id)`,
the view state is unchanged (no detail view rendered, no scroll lock), and
the rendering boundary receives the not-found signal instead of a listing
view-model. -/
theorem C3_detail_not_found (items : List Item) (hash : String) (vs : ViewState)
    (hdet : "#detail/".data.isPrefixOf hash.data = true)
    (hmiss : ∀ i ∈ items, i.id ≠ String.mk (hash.data.drop 8)) :
    handleHashChange items hash vs =
      (NavState.detail (String.mk (hash.data.drop 8)), vs,
       some DetailRender.notFound) := by
  have hfind : items.find? (fun i => i.id == String.mk (hash.data.drop 8)) = none := by
    rw [List.find?_eq_none]
    intro x hx
    simpa using hmiss x hx
  simp only [handleHashChange, hdet, if_true, openDetail, hfind]

/-- A concrete listing used by the closed witness statements. -/
def sampleItem : Item :=
  { id := "abc", status := some "접수중", region := some "서울",
    max_profit := some 100000000, schedule := none, models := none }

/-- Claim C3 witness: the fragment `#detail/doesnotexist` against a store
holding one listing with a different id. -/
theorem C3_witness :
    handleHashChange [sampleItem] "#detail/doesnotexist"
        { overlayActive := false, scrollLocked := false, panel := none } =
      (NavState.detail (String.mk ("#detail/doesnotexist".data.drop 8)),
       { overlayActive := false, scrollLocked := false, panel := none },
       some DetailRender.notFound) :=
  C3_detail_not_found _ "#detail/doesnotexist" _ (by decide) (by decide)

theorem heap_read_append_lt (h : Heap) (c : List Item) (r : Nat)
    (hr : r < h.length) : Heap.read (h ++ [c]) r = Heap.read h r := by
  unfold Heap.read
  rw [List.getD_eq_getElem?_getD, List.getD_eq_getElem?_getD,
    List.getElem?_append_left hr]

theorem heap_read_append_self (h : Heap) (c : List Item) :
    Heap.read (h ++ [c]) h.length = c := by
  unfold Heap.read
  rw [List.getD_eq_getElem?_getD, List.getElem?_concat_length]
  rfl

/-- Claim C8: the filter/sort pipeline never writes the caller's array —
after the pipeline runs, the input reference still reads its original
contents — and the array it returns holds exactly
`applySort(sortKey, applyFilters(filters, input))`, the pure composition. -/
theorem C8_pipeline_frame (f : Filters) (k : String) (h : Heap) (r : Nat)
    (hr : r < h.length) :
    Heap.read (renderPipelineH f k h r).1 r = Heap.read h r ∧
    Heap.read (renderPipelineH f k h r).1 (renderPipelineH f k h r).2 =
      applySort k (applyFilters f (Heap.read h r)) := by
  have hpipe : renderPipelineH f k h r =
      ((h ++ [applyFilters f (Heap.read h r)]) ++
        [applySort k (Heap.read (h ++ [applyFilters f (Heap.read h r)]) h.length)],
       (h ++ [applyFilters f (Heap.read h r)]).length) := rfl
  rw [hpipe, heap_read_append_self]
  constructor
  · rw [heap_read_append_lt _ _ _ (by simp; omega),
      heap_read_append_lt _ _ _ hr]
  · rw [heap_read_append_self]

/-- Claim C8 witness: a one-array heap through the pipeline with the
default filters and sort key. -/
theorem C8_witness :
    Heap.read (renderPipelineH ⟨"upcoming", "all"⟩ "date-asc" [[sampleItem]] 0).1 0 =
      Heap.read [[sampleItem]] 0 ∧
    Heap.read (renderPipelineH ⟨"upcoming", "all"⟩ "date-asc" [[sampleItem]] 0).1
        (renderPipelineH ⟨"upcoming", "all"⟩ "date-asc" [[sampleItem]] 0).2 =
      applySort "date-asc"
        (applyFilters ⟨"upcoming", "all"⟩ (Heap.read [[sampleItem]] 0)) :=
  C8_pipeline_frame ⟨"upcoming", "all"⟩ "date-asc" _ 0 (by decide)

/-- Claim C9: a fetch with a non-success status, a rejected fetch, or a
parse failure each leave the store empty and emit the fallback empty-state
signal exactly once; and population is all-or-nothing — the store ends
empty, or holds exactly the snapshot's items. -/
theorem C9_load_failure (f : Filters) (k : String) :
    (∀ resp : FetchResp, resp.ok = false →
      loadData (some resp) f k [] = ([], [RenderSignal.fallbackEmptyState])) ∧
    loadData none f k [] = ([], [RenderSignal.fallbackEmptyState]) ∧
    loadData (some { ok := true, body := none }) f k [] =
      ([], [RenderSignal.fallbackEmptyState]) ∧
    (∀ fetchResult, (loadData fetchResult f k []).1 = [] ∨
      ∃ resp data, fetchResult = some resp ∧ resp.ok = true ∧
        resp.body = some data ∧
        (loadData fetchResult f k []).1 = data.items.getD []) := by
  refine ⟨?_, rfl, rfl, ?_⟩
  · intro resp hfail
    simp [loadData, hfail]
  · intro fetchResult
    match fetchResult with
    | none => exact Or.inl rfl
    | some resp =>
      match hok : resp.ok with
      | false =>
        left
        simp [loadData, hok]
      | true =>
        match hb : resp.body with
        | none =>
          left
          simp [loadData, hok, hb]
        | some data =>
          right
          exact ⟨resp, data, rfl, hok, hb, by simp [loadData, hok, hb]⟩

/-- Claim C9 witness: a non-success fetch status with the default filter
and sort state. -/
theorem C9_witness :
    loadData (some { ok := false, body := none }) ⟨"upcoming", "all"⟩ "date-asc" [] =
      ([], [RenderSignal.fallbackEmptyState]) :=
  (C9_load_failure ⟨"upcoming", "all"⟩ "date-asc").1 { ok := false, body := none } rfl

/-- Claim C7: the date sort key of a listing is its reference date — the
receipt-start timestamp when that date is present and parses (to a nonzero
timestamp), else the announcement-date timestamp, else 0 (earliest
possible); a missing schedule, or missing/unparseable dates, give 0; and
the `date-asc` sort orders listings by this key non-decreasingly. -/
theorem C7_reference_date :
    (∀ (i : Item) (s : Schedule) (t : Int), i.schedule = some s →
        s.receipt_start = some (some t) → t ≠ 0 → bestDate i = t) ∧
    (∀ (i : Item) (s : Schedule) (t : Int), i.schedule = some s →
        (s.receipt_start = none ∨ s.receipt_start = some none) →
        s.announcement_date = some (some t) → bestDate i = t) ∧
    (∀ (i : Item) (s : Schedule), i.schedule = some s →
        (s.receipt_start = none ∨ s.receipt_start = some none) →
        (s.announcement_date = none ∨ s.announcement_date = some none) →
        bestDate i = 0) ∧
    (∀ i : Item, i.schedule = none → bestDate i = 0) ∧
    (∀ items : List Item,
      (applySort "date-asc" items).Perm items ∧
      (applySort "date-asc" items).Pairwise
        (fun a b => bestDate a ≤ bestDate b)) := by
  refine ⟨?_, ?_, ?_, ?_, ?_⟩
  · intro i s t hsch hrs ht
    simp [bestDate, hsch, dateVal, hrs, jsOrInt, ht]
  · intro i s t hsch hrs hann
    by_cases ht : t = 0 <;>
      rcases hrs with hrs | hrs <;>
        simp [bestDate, hsch, dateVal, hrs, hann, jsOrInt, ht]
  · intro i s hsch hrs hann
    rcases hrs with hrs | hrs <;> rcases hann with hann | hann <;>
      simp [bestDate, hsch, dateVal, hrs, hann, jsOrInt]
  · intro i hsch
    simp [bestDate, hsch, emptySchedule, dateVal, jsOrInt]
  · intro items
    rw [applySort_date_asc]
    refine ⟨List.mergeSort_perm items dateAscLe, ?_⟩
    have hs := List.sorted_mergeSort dateAscLe_trans dateAscLe_total items
    exact hs.imp (fun h => by simpa [dateAscLe] using h)

/-- Claim C7 witness: a listing whose receipt-start parses to timestamp 5
has reference date 5; one with no usable dates has reference date 0. -/
theorem C7_witness :
    bestDate { id := "x", status := none, region := none, max_profit := none,
               schedule := some { receipt_start := some (some 5),
                                  announcement_date := none },
               models := none } = 5 ∧
    bestDate { id := "y", status := none, region := none, max_profit := none,
               schedule := some { receipt_start := some none,
                                  announcement_date := none },
               models := none } = 0 :=
  ⟨C7_reference_date.1 _
      { receipt_start := some (some 5), announcement_date := none } 5
      rfl rfl (by decide),
   C7_reference_date.2.2.1 _
      { receipt_start := some none, announcement_date := none }
      rfl (Or.inr rfl) (Or.inl rfl)⟩

end AptSub
